import Mathlib

/-!
# gitop — verification of the monitoring-and-view-state engine

A shallow embedding, in Lean 4, of the core of `src/main.rs` of the
`gitop` terminal git monitor: the data model (`RepoStatus`,
`CommitInfo`, `ConsoleMessage`), the view-state flattening functions
(`calculate_table_row`, `get_selected_repo_index`), navigation
(`next`, `previous`, `toggle_expand`), the poller tick
(`monitor_repositories`, embedded as `processRepo` / `monitorTick`
with the VCS calls passed in as oracle functions), and the status
query (`get_repo_status`, embedded over an explicit model of the
libgit2 calls it makes).

Pure Rust functions become Lean functions; the per-tick mutation of
the shared repository table and console-message log becomes explicit
state passing; fallible git operations become values of explicit
result types supplied by the environment.
-/

namespace Gitop

/-- Embeds `CommitInfo` (src/main.rs, lines 85-92): short hash, author,
first message line, branch name, commit timestamp (modelled as integer
seconds). -/
structure CommitInfo where
  hash : String
  author : String
  message : String
  branch : String
  timestamp : Int
deriving DecidableEq, Repr

/-- Embeds `RepoStatus` (src/main.rs, lines 73-83).  `path` is the
(already expanded) filesystem path as a string, `last_update` an
abstract instant.  Note the struct has no highlight/flash field of any
kind. -/
structure RepoStatus where
  name : String
  path : String
  ahead : Nat
  behind : Nat
  current_branch : String
  last_update : Nat
  expanded : Bool
  recent_commits : List CommitInfo
deriving DecidableEq, Repr

/-- Embeds `ConsoleMessage` (src/main.rs, lines 94-100): one record of
the bounded event log. -/
structure ConsoleMessage where
  timestamp : Nat
  repo : String
  author : String
  message : String
deriving DecidableEq, Repr

/-- Embeds `RepoConfig` (src/main.rs, lines 66-71): one configured
repository; `remote` is optional (the comment in the source says it
defaults to "origin"). -/
structure RepoConfig where
  name : String
  path : String
  remote : Option String
deriving DecidableEq, Repr

/-- `PathBuf::push` on strings: pushing an absolute component replaces
the base, otherwise the component is joined with a separator. -/
def pushPath (base rest : String) : String :=
  if rest.startsWith "/" then rest else base ++ "/" ++ rest

/-- Embeds `expand_path` (src/main.rs, lines 148-166); the `HOME` /
`USERPROFILE` environment lookup is passed in as `home`. -/
def expandPath (home : Option String) (path : String) : String :=
  if path.startsWith "~" then
    match home with
    | some h =>
      if path.length > 1 && path.toList.get? 1 = some '/' then
        pushPath h (path.drop 2)
      else if path.length > 1 then
        pushPath h (path.drop 1)
      else h
    | none => path
  else path

/-- Embeds the per-repository initialisation in `App::new`
(src/main.rs, lines 170-183): zeroed counts, "unknown" branch,
collapsed, empty commit cache.  Note the configured `remote` field of
`RepoConfig` is not carried over into `RepoStatus` at all. -/
def RepoStatus.ofConfig (home : Option String) (now : Nat) (c : RepoConfig) : RepoStatus :=
  { name := c.name
    path := expandPath home c.path
    ahead := 0
    behind := 0
    current_branch := "unknown"
    last_update := now
    expanded := false
    recent_commits := [] }

/-- Embeds the `repos` vector built in `App::new` (src/main.rs,
lines 170-183). -/
def App.newRepos (home : Option String) (now : Nat) (cfgs : List RepoConfig) : List RepoStatus :=
  cfgs.map (RepoStatus.ofConfig home now)

/-! ## View state: flattening and index mapping -/

/-- The number of flat table rows one repository contributes: its own
row plus, when expanded, one row per cached commit (the row-building
loop of `ui`, src/main.rs, lines 581-624). -/
def repoSpan (r : RepoStatus) : Nat :=
  1 + (if r.expanded then r.recent_commits.length else 0)

/-- Total number of rows the `ui` function pushes for the repository
table (src/main.rs, lines 581-624): the valid flat row indices are
`0 ≤ r < uiRowCount repos`. -/
def uiRowCount : List RepoStatus → Nat
  | [] => 0
  | r :: rs => repoSpan r + uiRowCount rs

/-- Embeds `App::calculate_table_row` (src/main.rs, lines 279-291):
walk the repositories in order accumulating each span until the target
repository index is reached; out-of-range indices yield the total
span. -/
def calculate_table_row : List RepoStatus → Nat → Nat
  | [], _ => 0
  | _ :: _, 0 => 0
  | r :: rs, i + 1 => repoSpan r + calculate_table_row rs i

/-- The search loop inside `App::get_selected_repo_index`
(src/main.rs, lines 262-274): `idx` is the enumeration index, `cur`
the accumulated table row, `sel` the selected table row; returns the
repository index whose span contains `sel`, or `none` when the loop
falls through. -/
def selLoop : List RepoStatus → Nat → Nat → Nat → Option Nat
  | [], _, _, _ => none
  | r :: rs, idx, cur, sel =>
    if cur = sel then some idx
    else
      if sel < cur + repoSpan r then some idx
      else selLoop rs (idx + 1) (cur + repoSpan r) sel

/-- Embeds `App::get_selected_repo_index` (src/main.rs,
lines 255-277): resolves the selected flat table row (if any) to the
owning repository index, falling back to `0`. -/
def get_selected_repo_index (repos : List RepoStatus) (selected : Option Nat) : Nat :=
  if repos.isEmpty then 0
  else
    match selected with
    | some sel => (selLoop repos 0 0 sel).getD 0
    | none => 0

/-- Embeds `App::next` (src/main.rs, lines 219-235): advance the
selected repository by one with wraparound and reselect its flat
row. -/
def next (repos : List RepoStatus) (selected : Option Nat) : Option Nat :=
  if repos.isEmpty then selected
  else
    let current_repo_index := get_selected_repo_index repos selected
    let next_repo_index := if repos.length - 1 ≤ current_repo_index then 0 else current_repo_index + 1
    some (calculate_table_row repos next_repo_index)

/-- Embeds `App::previous` (src/main.rs, lines 237-253): retreat the
selected repository by one with wraparound and reselect its flat
row. -/
def previous (repos : List RepoStatus) (selected : Option Nat) : Option Nat :=
  if repos.isEmpty then selected
  else
    let current_repo_index := get_selected_repo_index repos selected
    let prev_repo_index := if current_repo_index = 0 then repos.length - 1 else current_repo_index - 1
    some (calculate_table_row repos prev_repo_index)

/-- The mutation applied to the selected repository by
`App::toggle_expand` (src/main.rs, lines 301-307): flip the expand
flag and, when the repository just became expanded, replace the cached
commit list with the freshly fetched one. -/
def toggleRepo (fetched : List CommitInfo) (r : RepoStatus) : RepoStatus :=
  let e := !r.expanded
  { r with expanded := e, recent_commits := if e then fetched else r.recent_commits }

/-- `repos.get_mut(i)` followed by the toggle mutation: apply
`toggleRepo` at index `i`, leaving every other entry (and an
out-of-range list) unchanged. -/
def setToggled : List RepoStatus → Nat → List CommitInfo → List RepoStatus
  | [], _, _ => []
  | r :: rs, 0, fetched => toggleRepo fetched r :: rs
  | r :: rs, n + 1, fetched => r :: setToggled rs n fetched

/-- Embeds `App::toggle_expand` (src/main.rs, lines 293-312).  The
commit list that `get_recent_commits` would return on expansion is
passed in as `fetched`.  Returns the new repository list and the new
flat selection. -/
def toggle_expand (repos : List RepoStatus) (selected : Option Nat)
    (fetched : List CommitInfo) : List RepoStatus × Option Nat :=
  if repos.isEmpty then (repos, selected)
  else
    let repo_index := get_selected_repo_index repos selected
    let repos2 := setToggled repos repo_index fetched
    (repos2, some (calculate_table_row repos2 repo_index))

/-! ## Poller: `monitor_repositories` -/

/-- The result of `get_repo_status(path, remote)` as seen by the
poller: `Ok((ahead, behind, branch))` or an error. -/
inductive GitResult where
  | ok (ahead behind : Nat) (branch : String)
  | err (e : String)
deriving DecidableEq, Repr

/-- The combined "status changed" message pushed when both counts
increased (src/main.rs, lines 497-503). -/
def statusChangedMsg (now : Nat) (name : String) (pa pb a b : Nat) : ConsoleMessage :=
  { timestamp := now
    repo := name
    author := "Git Monitor"
    message := s!"Status changed: {a} ahead (+{a - pa}), {b} behind (+{b - pb})" }

/-- The "new commits available" message pushed when only the behind
count increased (src/main.rs, lines 505-512). -/
def newCommitsMsg (now : Nat) (name : String) (pb b : Nat) : ConsoleMessage :=
  { timestamp := now
    repo := name
    author := "Git Monitor"
    message := s!"New commits available: {b} behind (+{b - pb})" }

/-- The "local commits added" message pushed when only the ahead count
increased (src/main.rs, lines 514-521). -/
def localCommitsMsg (now : Nat) (name : String) (pa a : Nat) : ConsoleMessage :=
  { timestamp := now
    repo := name
    author := "Git Monitor"
    message := s!"Local commits added: {a} ahead (+{a - pa})" }

/-- The "caught up" message pushed when a previously diverged
repository is now fully synced (src/main.rs, lines 525-533). -/
def caughtUpMsg (now : Nat) (name : String) : ConsoleMessage :=
  { timestamp := now
    repo := name
    author := "GitOp"
    message := "Repository is now up to date! 🎉" }

/-- One per-commit message pushed for each freshly fetched commit when
the ahead count increased (src/main.rs, lines 539-546). -/
def commitMsg (now : Nat) (name : String) (c : CommitInfo) : ConsoleMessage :=
  { timestamp := now, repo := name, author := c.author, message := c.message }

/-- The diagnostic message pushed when `get_repo_status` fails
(src/main.rs, lines 556-562). -/
def errMsg (now : Nat) (name path e : String) : ConsoleMessage :=
  { timestamp := now
    repo := name
    author := "System"
    message := s!"Git error: {e} (path: {path})" }

/-- The trim applied after the per-commit appends (src/main.rs,
lines 547-551): drop from the front down to the 50 most recent. -/
def trimConsole (msgs : List ConsoleMessage) : List ConsoleMessage :=
  if msgs.length > 50 then msgs.drop (msgs.length - 50) else msgs

/-- The body of the per-repository loop of `monitor_repositories`
(src/main.rs, lines 479-564), for one repository.  The calls out to
git are passed in as oracles: `status path remote` stands for
`get_repo_status(&path, remote)` and `recent path count` for
`get_recent_commits(&path, count)`.  Returns the updated repository
status and the updated console-message log. -/
def processRepo (now : Nat) (recent : String → Nat → List CommitInfo)
    (status : String → String → GitResult)
    (repo : RepoStatus) (msgs : List ConsoleMessage) : RepoStatus × List ConsoleMessage :=
  let remote := "origin"
  let repo := { repo with last_update := now }
  match status repo.path remote with
  | .ok ahead behind branch =>
    let prev_ahead := repo.ahead
    let prev_behind := repo.behind
    let repo := { repo with ahead := ahead, behind := behind, current_branch := branch }
    let msgs :=
      if behind > prev_behind ∧ ahead > prev_ahead then
        msgs ++ [statusChangedMsg now repo.name prev_ahead prev_behind ahead behind]
      else if behind > prev_behind then
        msgs ++ [newCommitsMsg now repo.name prev_behind behind]
      else if ahead > prev_ahead then
        msgs ++ [localCommitsMsg now repo.name prev_ahead ahead]
      else msgs
    let msgs :=
      if (prev_behind > 0 ∨ prev_ahead > 0) ∧ behind = 0 ∧ ahead = 0 then
        msgs ++ [caughtUpMsg now repo.name]
      else msgs
    let msgs :=
      if ahead > prev_ahead then
        trimConsole (msgs ++ (recent repo.path (min (ahead - prev_ahead) 5)).map (commitMsg now repo.name))
      else msgs
    (repo, msgs)
  | .err e =>
    (repo, msgs ++ [errMsg now repo.name repo.path e])

/-- One tick of `monitor_repositories` (src/main.rs, lines 478-566):
process every repository in configured order under the single critical
section, threading the console-message log through. -/
def monitorTick (now : Nat) (recent : String → Nat → List CommitInfo)
    (status : String → String → GitResult) :
    List RepoStatus → List ConsoleMessage → List RepoStatus × List ConsoleMessage
  | [], msgs => ([], msgs)
  | repo :: rest, msgs =>
    let p := processRepo now recent status repo msgs
    let q := monitorTick now recent status rest p.2
    (p.1 :: q.1, q.2)

/-- Event-synthesis rule as the spec states it, step 1-3 of §4.1 (for
comparison with the poller's code path): first match wins — combined
event when both counts increased, else "new commits" when behind
increased, else "local commits" when ahead increased, else nothing. -/
def specPrimaryEvents (now : Nat) (name : String) (pa pb a b : Nat) : List ConsoleMessage :=
  if b > pb ∧ a > pa then [statusChangedMsg now name pa pb a b]
  else if b > pb then [newCommitsMsg now name pb b]
  else if a > pa then [localCommitsMsg now name pa a]
  else []

/-- Event-synthesis rule as the spec states it, step 4 of §4.1: a
"caught up" event exactly when the repository was diverged and is now
fully synced. -/
def specCaughtUpEvents (now : Nat) (name : String) (pa pb a b : Nat) : List ConsoleMessage :=
  if (pb > 0 ∨ pa > 0) ∧ b = 0 ∧ a = 0 then [caughtUpMsg now name] else []

/-- The per-commit records of step 5 of §4.1: when ahead increased,
one record per fetched commit (up to `min(delta, 5)` of them). -/
def specCommitEvents (now : Nat) (recent : String → Nat → List CommitInfo)
    (path name : String) (pa a : Nat) : List ConsoleMessage :=
  if a > pa then (recent path (min (a - pa) 5)).map (commitMsg now name) else []

/-! ## `get_repo_status` -/

/-- The `head()` reference of an opened repository: its `shorthand()`
(absent when the name is not valid UTF-8) and its `target()` object
id (absent for a symbolic reference). -/
structure HeadModel where
  shorthand : Option String
  target : Option Nat
deriving DecidableEq, Repr

/-- A model of the libgit2 calls `get_repo_status` makes on an opened
repository (src/main.rs, lines 404-430): the result of `head()`, the
discarded result of the remote fetch, `find_reference` (`none` for
`Err`, otherwise the found reference's `target()`), and
`graph_ahead_behind`. -/
structure GitRepoModel where
  headRes : Except String HeadModel
  fetchResult : Except String Unit
  findReference : String → Option (Option Nat)
  graphAheadBehind : Nat → Nat → Except String (Nat × Nat)

/-- Possible outcomes of `get_repo_status`: `Ok`, `Err`, or the panic
of the `head.target().unwrap()` on line 416. -/
inductive StatusOutcome where
  | ok (ahead behind : Nat) (branch : String)
  | err (e : String)
  | panicked
deriving DecidableEq, Repr

/-- Embeds `get_repo_status` (src/main.rs, lines 404-430) over an
opened-repository model (`openRes` is the result of
`Repository::open`).  The attempted fetch's result is discarded by the
source (`let _ = remote_ref.fetch(...)`), so `fetchResult` is never
read. -/
def get_repo_status (openRes : Except String GitRepoModel) (remote : String) : StatusOutcome :=
  match openRes with
  | .error e => .err e
  | .ok repo =>
    match repo.headRes with
    | .error e => .err e
    | .ok head =>
      let current_branch := head.shorthand.getD "unknown"
      match head.target with
      | none => .panicked
      | some local_oid =>
        let remote_branch := remote ++ "/" ++ current_branch
        match repo.findReference ("refs/remotes/" ++ remote_branch) with
        | some (some remote_oid) =>
          match repo.graphAheadBehind local_oid remote_oid with
          | .ok (a, b) => .ok a b current_branch
          | .error e => .err e
        | some none => .ok 0 0 current_branch
        | none => .ok 0 0 current_branch

/-! ## Rendering of repository rows -/

/-- The fragment of a ratatui `Style` the repository table rows can
carry: optional foreground colour and modifier list. -/
structure RowStyle where
  fg : Option String
  modifiers : List String
deriving DecidableEq, Repr

/-- `Style::default()`. -/
def defaultStyle : RowStyle := { fg := none, modifiers := [] }

/-- The style `ui` applies to a repository's table row (src/main.rs,
lines 581-583 and 606-611): literally `Style::default()` for every
repository — the source's comment reads "No more flashing - keep it
simple and clean". -/
def repoRowStyle (_ : RepoStatus) : RowStyle := defaultStyle

/-- The five rendering-intensity tiers the spec's §4.3 describes. -/
inductive HighlightTier where
  | maxEmphasis
  | boldTier
  | plainColor
  | understated
  | minimal
deriving DecidableEq, Repr

/-- Modelled from the spec: the five-tier highlight banding of §4.3
("`>0.8` → maximum emphasis, `>0.6` → bold, `>0.4` → plain color,
`>0.2` → understated emphasis, else → minimal emphasis" of
`remaining_fraction = remaining / total`), which is absent from the
source — given here only to be compared against the code's actual row
style. -/
def specHighlightTier (remaining total : ℚ) : HighlightTier :=
  let f := remaining / total
  if f > 8/10 then .maxEmphasis
  else if f > 6/10 then .boldTier
  else if f > 4/10 then .plainColor
  else if f > 2/10 then .understated
  else .minimal

/-! ## Concrete sample data, used by the closed instances below -/

def commitA : CommitInfo :=
  { hash := "aaaaaaaa", author := "Alice", message := "add feature x"
    branch := "main", timestamp := 10 }

def commitB : CommitInfo :=
  { hash := "bbbbbbbb", author := "Bob", message := "fix build"
    branch := "main", timestamp := 20 }

def repoBase : RepoStatus :=
  { name := "alpha", path := "/tmp/alpha", ahead := 0, behind := 0
    current_branch := "main", last_update := 0, expanded := false, recent_commits := [] }

def repoExpandedOne : RepoStatus :=
  { repoBase with name := "exp", expanded := true, recent_commits := [commitA] }

def reposABC : List RepoStatus :=
  [{ repoBase with name := "A", expanded := true, recent_commits := [commitA, commitB] },
   { repoBase with name := "B" },
   { repoBase with name := "C" }]

def msg0 : ConsoleMessage := { timestamp := 0, repo := "r", author := "a", message := "m" }

def recentNone : String → Nat → List CommitInfo := fun _ _ => []

def statusErrAll : String → String → GitResult := fun _ _ => .err "boom"

def statusOk23 : String → String → GitResult := fun _ _ => .ok 2 3 "main"

def cfgUpstream : RepoConfig := { name := "up", path := "/tmp/up", remote := some "upstream" }

def statusByRemote : String → String → GitResult :=
  fun _ rem => if rem = "upstream" then .ok 3 4 "main" else .ok 0 0 "main"

def headMain : HeadModel := { shorthand := some "main", target := some 7 }

def repoNoRemoteBranch : GitRepoModel :=
  { headRes := .ok headMain
    fetchResult := .error "network down"
    findReference := fun _ => none
    graphAheadBehind := fun _ _ => .ok (9, 9) }

def repoStale : RepoStatus :=
  { name := "zeta", path := "/srv/zeta", ahead := 5, behind := 7
    current_branch := "dev", last_update := 99, expanded := true, recent_commits := [commitB] }

/-! ## Helper lemmas -/

theorem repoSpan_pos (r : RepoStatus) : 1 ≤ repoSpan r := by
  unfold repoSpan; split <;> omega

theorem selLoop_calc (repos : List RepoStatus) :
    ∀ i k c, i < repos.length →
      selLoop repos k c (c + calculate_table_row repos i) = some (k + i) := by
  induction repos with
  | nil => intro i k c h; simp at h
  | cons r rs ih =>
    intro i k c h
    match i with
    | 0 => simp [selLoop, calculate_table_row]
    | i + 1 =>
      have hspan : 1 ≤ repoSpan r := repoSpan_pos r
      have h1 : i < rs.length := by simpa using Nat.lt_of_succ_lt_succ h
      have e1 : c + (repoSpan r + calculate_table_row rs i) =
          (c + repoSpan r) + calculate_table_row rs i := by omega
      simp only [calculate_table_row, selLoop]
      rw [if_neg (by omega), if_neg (by omega), e1,
        ih i (k + 1) (c + repoSpan r) h1]
      congr 1
      omega

theorem get_selected_flatten (repos : List RepoStatus) (i : Nat) (hi : i < repos.length) :
    get_selected_repo_index repos (some (calculate_table_row repos i)) = i := by
  have hne : repos.isEmpty = false := by
    cases repos with
    | nil => simp at hi
    | cons a l => rfl
  have h := selLoop_calc repos i 0 0 hi
  simp only [Nat.zero_add] at h
  simp [get_selected_repo_index, hne, h]

theorem selLoop_lt (repos : List RepoStatus) :
    ∀ k c sel j, selLoop repos k c sel = some j → j < k + repos.length := by
  induction repos with
  | nil => intro k c sel j h; simp [selLoop] at h
  | cons r rs ih =>
    intro k c sel j h
    simp only [selLoop] at h
    split at h
    · cases h; simp only [List.length_cons]; omega
    · split at h
      · cases h; simp only [List.length_cons]; omega
      · have := ih (k + 1) (c + repoSpan r) sel j h
        simp only [List.length_cons]; omega

theorem get_selected_lt (repos : List RepoStatus) (sel : Option Nat) (h : repos ≠ []) :
    get_selected_repo_index repos sel < repos.length := by
  have hlen : 0 < repos.length := List.length_pos.mpr h
  have hne : repos.isEmpty = false := by
    cases repos with
    | nil => exact absurd rfl h
    | cons a l => rfl
  unfold get_selected_repo_index
  rw [hne]
  simp only [Bool.false_eq_true, if_false]
  cases sel with
  | none => exact hlen
  | some s =>
    show (selLoop repos 0 0 s).getD 0 < repos.length
    cases hh : selLoop repos 0 0 s with
    | none => simpa using hlen
    | some j => simpa using selLoop_lt repos 0 0 s j hh

theorem processRepo_ok (now : Nat) (recent : String → Nat → List CommitInfo)
    (status : String → String → GitResult) (repo : RepoStatus)
    (msgs : List ConsoleMessage) (a b : Nat) (br : String)
    (hs : status repo.path "origin" = .ok a b br) :
    processRepo now recent status repo msgs =
      ({ repo with last_update := now, ahead := a, behind := b, current_branch := br },
        (if a > repo.ahead then trimConsole else id)
          (msgs ++ specPrimaryEvents now repo.name repo.ahead repo.behind a b
                ++ specCaughtUpEvents now repo.name repo.ahead repo.behind a b
                ++ specCommitEvents now recent repo.path repo.name repo.ahead a)) := by
  simp only [processRepo, hs, specPrimaryEvents, specCaughtUpEvents, specCommitEvents]
  split_ifs <;> simp [List.append_assoc]

theorem processRepo_err (now : Nat) (recent : String → Nat → List CommitInfo)
    (status : String → String → GitResult) (repo : RepoStatus)
    (msgs : List ConsoleMessage) (e : String)
    (hs : status repo.path "origin" = .err e) :
    processRepo now recent status repo msgs =
      ({ repo with last_update := now }, msgs ++ [errMsg now repo.name repo.path e]) := by
  simp only [processRepo, hs]

theorem monitorTick_append (now : Nat) (recent : String → Nat → List CommitInfo)
    (status : String → String → GitResult) (pre rest : List RepoStatus)
    (msgs : List ConsoleMessage) :
    monitorTick now recent status (pre ++ rest) msgs =
      ((monitorTick now recent status pre msgs).1 ++
        (monitorTick now recent status rest (monitorTick now recent status pre msgs).2).1,
       (monitorTick now recent status rest (monitorTick now recent status pre msgs).2).2) := by
  induction pre generalizing msgs with
  | nil => simp [monitorTick]
  | cons r rs ih => simp [monitorTick, ih]

theorem trimConsole_eq_drop (msgs : List ConsoleMessage) :
    trimConsole msgs = msgs.drop (msgs.length - 50) := by
  unfold trimConsole
  split
  · rfl
  · next h =>
    have h0 : msgs.length - 50 = 0 := by omega
    rw [h0, List.drop_zero]

theorem setToggled_length (repos : List RepoStatus) :
    ∀ i fetched, (setToggled repos i fetched).length = repos.length := by
  induction repos with
  | nil => intro i fetched; rfl
  | cons r rs ih =>
    intro i fetched
    match i with
    | 0 => simp [setToggled]
    | n + 1 => simp [setToggled, ih]

theorem setToggled_get_ne (repos : List RepoStatus) :
    ∀ i j fetched, j ≠ i → (setToggled repos i fetched).get? j = repos.get? j := by
  induction repos with
  | nil => intro i j fetched _; rfl
  | cons r rs ih =>
    intro i j fetched hj
    match i, j with
    | 0, 0 => exact absurd rfl hj
    | 0, j + 1 => simp [setToggled]
    | n + 1, 0 => simp [setToggled]
    | n + 1, j + 1 =>
      simp only [setToggled, List.get?]
      exact ih n j fetched (by omega)

theorem setToggled_get_eq (repos : List RepoStatus) :
    ∀ i fetched, (setToggled repos i fetched).get? i = (repos.get? i).map (toggleRepo fetched) := by
  induction repos with
  | nil => intro i fetched; rfl
  | cons r rs ih =>
    intro i fetched
    match i with
    | 0 => simp [setToggled]
    | n + 1 =>
      simp only [setToggled, List.get?]
      exact ih n fetched

/-! ## Claims -/

/-- C1: for every repository whose VCS status query succeeds in a poll
tick, the console records appended by `processRepo` are exactly, in
order: the priority chain — one combined "status changed" record
citing both deltas when both counts increased (and then no separate
"new commits" / "local commits" record), else one "new commits
available" record when behind increased, else one "local commits
added" record when ahead increased, else none — then, independently of
those three, one "caught up" record exactly when the repository was
previously diverged and both counts are now zero; finally the
per-commit records and, only on the ahead-increase path, the capacity
trim. -/
theorem C1_event_synthesis (now : Nat) (recent : String → Nat → List CommitInfo)
    (status : String → String → GitResult) (repo : RepoStatus)
    (msgs : List ConsoleMessage) (a b : Nat) (br : String)
    (hs : status repo.path "origin" = .ok a b br) :
    (processRepo now recent status repo msgs).2 =
      (if a > repo.ahead then trimConsole else id)
        (msgs ++ specPrimaryEvents now repo.name repo.ahead repo.behind a b
              ++ specCaughtUpEvents now repo.name repo.ahead repo.behind a b
              ++ specCommitEvents now recent repo.path repo.name repo.ahead a) ∧
    (b > repo.behind ∧ a > repo.ahead →
      specPrimaryEvents now repo.name repo.ahead repo.behind a b =
        [statusChangedMsg now repo.name repo.ahead repo.behind a b]) ∧
    (¬(b > repo.behind ∧ a > repo.ahead) → b > repo.behind →
      specPrimaryEvents now repo.name repo.ahead repo.behind a b =
        [newCommitsMsg now repo.name repo.behind b]) ∧
    (¬ b > repo.behind → a > repo.ahead →
      specPrimaryEvents now repo.name repo.ahead repo.behind a b =
        [localCommitsMsg now repo.name repo.ahead a]) ∧
    (¬ b > repo.behind → ¬ a > repo.ahead →
      specPrimaryEvents now repo.name repo.ahead repo.behind a b = []) ∧
    (specCaughtUpEvents now repo.name repo.ahead repo.behind a b =
      if (repo.behind > 0 ∨ repo.ahead > 0) ∧ b = 0 ∧ a = 0
      then [caughtUpMsg now repo.name] else []) := by
  refine ⟨?_, ?_, ?_, ?_, ?_, rfl⟩
  · rw [processRepo_ok now recent status repo msgs a b br hs]
  · intro h
    unfold specPrimaryEvents
    rw [if_pos h]
  · intro h1 h2
    unfold specPrimaryEvents
    rw [if_neg h1, if_pos h2]
  · intro h1 h2
    unfold specPrimaryEvents
    rw [if_neg (fun hc => h1 hc.1), if_neg h1, if_pos h2]
  · intro h1 h2
    unfold specPrimaryEvents
    rw [if_neg (fun hc => h1 hc.1), if_neg h1, if_neg h2]

/-- C1 at a concrete input: repository at `(0, 0)` observing `(2, 3)`. -/
theorem C1_event_synthesis_witness :
    (processRepo 0 recentNone statusOk23 repoBase []).2 =
      (if 2 > repoBase.ahead then trimConsole else id)
        ([] ++ specPrimaryEvents 0 repoBase.name repoBase.ahead repoBase.behind 2 3
              ++ specCaughtUpEvents 0 repoBase.name repoBase.ahead repoBase.behind 2 3
              ++ specCommitEvents 0 recentNone repoBase.path repoBase.name repoBase.ahead 2) ∧
    (3 > repoBase.behind ∧ 2 > repoBase.ahead →
      specPrimaryEvents 0 repoBase.name repoBase.ahead repoBase.behind 2 3 =
        [statusChangedMsg 0 repoBase.name repoBase.ahead repoBase.behind 2 3]) ∧
    (¬(3 > repoBase.behind ∧ 2 > repoBase.ahead) → 3 > repoBase.behind →
      specPrimaryEvents 0 repoBase.name repoBase.ahead repoBase.behind 2 3 =
        [newCommitsMsg 0 repoBase.name repoBase.behind 3]) ∧
    (¬ 3 > repoBase.behind → 2 > repoBase.ahead →
      specPrimaryEvents 0 repoBase.name repoBase.ahead repoBase.behind 2 3 =
        [localCommitsMsg 0 repoBase.name repoBase.ahead 2]) ∧
    (¬ 3 > repoBase.behind → ¬ 2 > repoBase.ahead →
      specPrimaryEvents 0 repoBase.name repoBase.ahead repoBase.behind 2 3 = []) ∧
    (specCaughtUpEvents 0 repoBase.name repoBase.ahead repoBase.behind 2 3 =
      if (repoBase.behind > 0 ∨ repoBase.ahead > 0) ∧ 3 = 0 ∧ 2 = 0
      then [caughtUpMsg 0 repoBase.name] else []) :=
  C1_event_synthesis 0 recentNone statusOk23 repoBase [] 2 3 "main" rfl

/-- C2 counterexample: a log already holding 50 records receives a
diagnostic record for a failed status query and afterwards holds 51
records — the claimed capacity-50 eviction does not happen on this
kind of append. -/
theorem C2_counterexample :
    ((processRepo 0 recentNone statusErrAll repoBase (List.replicate 50 msg0)).2).length = 51 := by
  rw [processRepo_err 0 recentNone statusErrAll repoBase (List.replicate 50 msg0) "boom" rfl]
  simp

/-- C2 (amended): the log is cut down to the 50 most recent records
only on the per-commit append path — when the ahead count increased,
the whole log is trimmed from the front after the commit records are
appended (so it then holds at most 50 records); an append on the
failure path evicts nothing. -/
theorem C2_trim_only_on_commit_append (now : Nat)
    (recent : String → Nat → List CommitInfo)
    (status : String → String → GitResult) (repo : RepoStatus)
    (msgs : List ConsoleMessage) (a b : Nat) (br : String)
    (hs : status repo.path "origin" = .ok a b br) (hinc : a > repo.ahead) :
    (processRepo now recent status repo msgs).2 =
      (msgs ++ specPrimaryEvents now repo.name repo.ahead repo.behind a b
            ++ specCaughtUpEvents now repo.name repo.ahead repo.behind a b
            ++ specCommitEvents now recent repo.path repo.name repo.ahead a).drop
        ((msgs ++ specPrimaryEvents now repo.name repo.ahead repo.behind a b
            ++ specCaughtUpEvents now repo.name repo.ahead repo.behind a b
            ++ specCommitEvents now recent repo.path repo.name repo.ahead a).length - 50) ∧
    ((processRepo now recent status repo msgs).2).length ≤ 50 ∧
    (∀ e (repo2 : RepoStatus) msgs2, status repo2.path "origin" = GitResult.err e →
      (processRepo now recent status repo2 msgs2).2 =
        msgs2 ++ [errMsg now repo2.name repo2.path e]) := by
  have h := processRepo_ok now recent status repo msgs a b br hs
  refine ⟨?_, ?_, ?_⟩
  · simp only [h, if_pos hinc, trimConsole_eq_drop]
  · simp only [h, if_pos hinc, trimConsole_eq_drop, List.length_drop]
    omega
  · intro e repo2 msgs2 hs2
    rw [processRepo_err now recent status repo2 msgs2 e hs2]

/-- C2 at a concrete input: counts go from `(0, 0)` to `(2, 3)` on a
log of 60 records, which is trimmed back to 50. -/
theorem C2_trim_only_on_commit_append_witness :
    (processRepo 0 recentNone statusOk23 repoBase (List.replicate 60 msg0)).2 =
      (List.replicate 60 msg0
            ++ specPrimaryEvents 0 repoBase.name repoBase.ahead repoBase.behind 2 3
            ++ specCaughtUpEvents 0 repoBase.name repoBase.ahead repoBase.behind 2 3
            ++ specCommitEvents 0 recentNone repoBase.path repoBase.name repoBase.ahead 2).drop
        ((List.replicate 60 msg0
            ++ specPrimaryEvents 0 repoBase.name repoBase.ahead repoBase.behind 2 3
            ++ specCaughtUpEvents 0 repoBase.name repoBase.ahead repoBase.behind 2 3
            ++ specCommitEvents 0 recentNone repoBase.path repoBase.name repoBase.ahead 2).length - 50) ∧
    ((processRepo 0 recentNone statusOk23 repoBase (List.replicate 60 msg0)).2).length ≤ 50 ∧
    (∀ e (repo2 : RepoStatus) msgs2, statusOk23 repo2.path "origin" = GitResult.err e →
      (processRepo 0 recentNone statusOk23 repo2 msgs2).2 =
        msgs2 ++ [errMsg 0 repo2.name repo2.path e]) :=
  C2_trim_only_on_commit_append 0 recentNone statusOk23 repoBase
    (List.replicate 60 msg0) 2 3 "main" rfl (by decide)

/-- C3 counterexample: one expanded repository with one cached commit;
flat row 1 (the commit sub-row) is a valid row of the rendered table,
but `flatten (unflatten 1) = 0 ≠ 1`: the two maps are not mutually
inverse on commit sub-rows. -/
theorem C3_counterexample :
    1 < uiRowCount [repoExpandedOne] ∧
    get_selected_repo_index [repoExpandedOne] (some 1) = 0 ∧
    calculate_table_row [repoExpandedOne] 0 = 0 ∧
    (0 : Nat) ≠ 1 := by
  refine ⟨by decide, by decide, rfl, by omega⟩

/-- C3 (amended): `unflatten (flatten i) = i` for every repository
index `i`, whatever the expand flags and commit-list lengths, so
`flatten ∘ unflatten` fixes every repository row (though not commit
sub-rows, which resolve to their owning repository); on an empty
repository list both operations return 0 (no-ops on the selection). -/
theorem C3_flatten_unflatten (repos : List RepoStatus) (i : Nat) (hi : i < repos.length) :
    get_selected_repo_index repos (some (calculate_table_row repos i)) = i ∧
    calculate_table_row repos
        (get_selected_repo_index repos (some (calculate_table_row repos i))) =
      calculate_table_row repos i ∧
    (∀ s, get_selected_repo_index [] s = 0) ∧
    (∀ j, calculate_table_row [] j = 0) := by
  have h := get_selected_flatten repos i hi
  exact ⟨h, by rw [h], fun s => rfl, fun j => rfl⟩

/-- C3 at a concrete input: three repositories, the first expanded
with two commits; repository index 1 round-trips. -/
theorem C3_flatten_unflatten_witness :
    get_selected_repo_index reposABC (some (calculate_table_row reposABC 1)) = 1 ∧
    calculate_table_row reposABC
        (get_selected_repo_index reposABC (some (calculate_table_row reposABC 1))) =
      calculate_table_row reposABC 1 ∧
    (∀ s, get_selected_repo_index [] s = 0) ∧
    (∀ j, calculate_table_row [] j = 0) :=
  C3_flatten_unflatten reposABC 1 (by decide)

/-- C4: when the status query for a repository fails, that repository
keeps its ahead/behind counts and branch (only the liveness timestamp
is set), exactly one diagnostic record naming the repository, the path
and the error is appended, and every repository after it in iteration
order is still processed in the same tick. -/
theorem C4_failure_isolation (now : Nat) (recent : String → Nat → List CommitInfo)
    (status : String → String → GitResult) (repo : RepoStatus) (e : String)
    (pre rest : List RepoStatus) (msgs : List ConsoleMessage)
    (hs : status repo.path "origin" = .err e) :
    processRepo now recent status repo msgs =
      ({ repo with last_update := now }, msgs ++ [errMsg now repo.name repo.path e]) ∧
    (processRepo now recent status repo msgs).1.ahead = repo.ahead ∧
    (processRepo now recent status repo msgs).1.behind = repo.behind ∧
    (processRepo now recent status repo msgs).1.current_branch = repo.current_branch ∧
    monitorTick now recent status (pre ++ repo :: rest) msgs =
      ((monitorTick now recent status pre msgs).1 ++
         { repo with last_update := now } ::
           (monitorTick now recent status rest
             ((monitorTick now recent status pre msgs).2 ++
               [errMsg now repo.name repo.path e])).1,
       (monitorTick now recent status rest
         ((monitorTick now recent status pre msgs).2 ++
           [errMsg now repo.name repo.path e])).2) := by
  have hp : ∀ m, processRepo now recent status repo m =
      ({ repo with last_update := now }, m ++ [errMsg now repo.name repo.path e]) :=
    fun m => processRepo_err now recent status repo m e hs
  refine ⟨hp msgs, by rw [hp msgs], by rw [hp msgs], by rw [hp msgs], ?_⟩
  rw [monitorTick_append]
  simp only [monitorTick, hp]

/-- C4 at a concrete input: three repositories, the middle one failing
with "boom". -/
theorem C4_failure_isolation_witness :
    processRepo 0 recentNone statusErrAll repoBase [] =
      ({ repoBase with last_update := 0 },
        [] ++ [errMsg 0 repoBase.name repoBase.path "boom"]) ∧
    (processRepo 0 recentNone statusErrAll repoBase []).1.ahead = repoBase.ahead ∧
    (processRepo 0 recentNone statusErrAll repoBase []).1.behind = repoBase.behind ∧
    (processRepo 0 recentNone statusErrAll repoBase []).1.current_branch =
      repoBase.current_branch ∧
    monitorTick 0 recentNone statusErrAll ([repoExpandedOne] ++ repoBase :: [repoStale]) [] =
      ((monitorTick 0 recentNone statusErrAll [repoExpandedOne] []).1 ++
         { repoBase with last_update := 0 } ::
           (monitorTick 0 recentNone statusErrAll [repoStale]
             ((monitorTick 0 recentNone statusErrAll [repoExpandedOne] []).2 ++
               [errMsg 0 repoBase.name repoBase.path "boom"])).1,
       (monitorTick 0 recentNone statusErrAll [repoStale]
         ((monitorTick 0 recentNone statusErrAll [repoExpandedOne] []).2 ++
           [errMsg 0 repoBase.name repoBase.path "boom"])).2) :=
  C4_failure_isolation 0 recentNone statusErrAll repoBase "boom"
    [repoExpandedOne] [repoStale] [] rfl

/-- C5 counterexample: the code draws every repository row with
`Style::default()` — two repositories in completely different states
render identically — while the spec's five-tier banding would render
25s and 1s of a 30s highlight at different tiers; the claimed
fraction-derived intensity does not exist in the code. -/
theorem C5_counterexample :
    repoRowStyle repoBase = repoRowStyle repoStale ∧
    specHighlightTier 25 30 = HighlightTier.maxEmphasis ∧
    specHighlightTier 1 30 = HighlightTier.minimal ∧
    HighlightTier.maxEmphasis ≠ HighlightTier.minimal := by
  refine ⟨rfl, ?_, ?_, by decide⟩
  · norm_num [specHighlightTier]
  · norm_num [specHighlightTier]

/-- C5 (amended): the code has no highlight mechanism — `RepoStatus`
carries no highlight state and the `ui` function styles every
repository row with the default (empty) style, independent of any
elapsed time or repository state. -/
theorem C5_row_style_constant (r1 r2 : RepoStatus) :
    repoRowStyle r1 = defaultStyle ∧ repoRowStyle r1 = repoRowStyle r2 :=
  ⟨rfl, rfl⟩

/-- C6 counterexample: a repository configured with remote
`"upstream"`; against a VCS oracle that reports `(3, 4)` for
`"upstream"` and `(0, 0)` for any other remote, a poll tick leaves the
ahead count at 0 — the poller queried the hard-coded `"origin"`, not
the configured remote. -/
theorem C6_counterexample :
    cfgUpstream.remote = some "upstream" ∧
    statusByRemote (RepoStatus.ofConfig none 0 cfgUpstream).path "upstream" =
      GitResult.ok 3 4 "main" ∧
    ((monitorTick 0 recentNone statusByRemote
        [RepoStatus.ofConfig none 0 cfgUpstream] []).1.map RepoStatus.ahead) = [0] ∧
    (0 : Nat) ≠ 3 := by
  refine ⟨rfl, rfl, rfl, by omega⟩

/-- C6 (amended): the poller always queries the VCS with the literal
remote name "origin" (`let remote = "origin"`), for every repository;
the configured remote is never consulted, so a tick's outcome is
unchanged if the status oracle is replaced by one that only answers
for "origin". -/
theorem C6_remote_always_origin (now : Nat) (recent : String → Nat → List CommitInfo)
    (status : String → String → GitResult) (repos : List RepoStatus)
    (msgs : List ConsoleMessage) :
    monitorTick now recent status repos msgs =
      monitorTick now recent (fun p _ => status p "origin") repos msgs := by
  induction repos generalizing msgs with
  | nil => rfl
  | cons r rs ih =>
    simp only [monitorTick]
    rw [show processRepo now recent (fun p _ => status p "origin") r msgs =
          processRepo now recent status r msgs from rfl]
    rw [ih]

/-- C7: with the selection resolving to repository `i` of a non-empty
list, `next` selects the flat row of repository `(i+1) mod n` and
`previous` the flat row of repository `(i+n-1) mod n` — wraparound at
both ends — and in both cases the new selection resolves back to that
repository index, i.e. it is a repository row, never a commit
sub-row. -/
theorem C7_navigation_wraps (repos : List RepoStatus) (i : Nat) (hi : i < repos.length) :
    next repos (some (calculate_table_row repos i)) =
      some (calculate_table_row repos ((i + 1) % repos.length)) ∧
    get_selected_repo_index repos (next repos (some (calculate_table_row repos i))) =
      (i + 1) % repos.length ∧
    previous repos (some (calculate_table_row repos i)) =
      some (calculate_table_row repos ((i + repos.length - 1) % repos.length)) ∧
    get_selected_repo_index repos (previous repos (some (calculate_table_row repos i))) =
      (i + repos.length - 1) % repos.length := by
  have hlen : 0 < repos.length := lt_of_le_of_lt (Nat.zero_le i) hi
  have hne : repos.isEmpty = false := by
    cases repos with
    | nil => simp at hi
    | cons a l => rfl
  have hsel := get_selected_flatten repos i hi
  have hnext : (if repos.length - 1 ≤ i then 0 else i + 1) = (i + 1) % repos.length := by
    rcases Nat.lt_or_ge i (repos.length - 1) with h | h
    · rw [if_neg (by omega), Nat.mod_eq_of_lt (by omega)]
    · have e : i + 1 = repos.length := by omega
      rw [if_pos (by omega), e, Nat.mod_self]
  have hprev : (if i = 0 then repos.length - 1 else i - 1) =
      (i + repos.length - 1) % repos.length := by
    rcases Nat.eq_zero_or_pos i with h | h
    · subst h
      have e : 0 + repos.length - 1 = repos.length - 1 := by omega
      rw [if_pos rfl, e, Nat.mod_eq_of_lt (by omega)]
    · have e : i + repos.length - 1 = (i - 1) + repos.length := by omega
      rw [if_neg (by omega), e, Nat.add_mod_right, Nat.mod_eq_of_lt (by omega)]
  have hn : next repos (some (calculate_table_row repos i)) =
      some (calculate_table_row repos ((i + 1) % repos.length)) := by
    simp only [next, hne, Bool.false_eq_true, if_false]
    rw [hsel, hnext]
  have hp : previous repos (some (calculate_table_row repos i)) =
      some (calculate_table_row repos ((i + repos.length - 1) % repos.length)) := by
    simp only [previous, hne, Bool.false_eq_true, if_false]
    rw [hsel, hprev]
  refine ⟨hn, ?_, hp, ?_⟩
  · rw [hn]
    exact get_selected_flatten repos ((i + 1) % repos.length) (Nat.mod_lt _ hlen)
  · rw [hp]
    exact get_selected_flatten repos ((i + repos.length - 1) % repos.length)
      (Nat.mod_lt _ hlen)

/-- C7 at a concrete input: three repositories (the first expanded
with two commits), starting from the last repository. -/
theorem C7_navigation_wraps_witness :
    next reposABC (some (calculate_table_row reposABC 2)) =
      some (calculate_table_row reposABC ((2 + 1) % reposABC.length)) ∧
    get_selected_repo_index reposABC (next reposABC (some (calculate_table_row reposABC 2))) =
      (2 + 1) % reposABC.length ∧
    previous reposABC (some (calculate_table_row reposABC 2)) =
      some (calculate_table_row reposABC ((2 + reposABC.length - 1) % reposABC.length)) ∧
    get_selected_repo_index reposABC
        (previous reposABC (some (calculate_table_row reposABC 2))) =
      (2 + reposABC.length - 1) % reposABC.length :=
  C7_navigation_wraps reposABC 2 (by decide)

/-- C8: toggling the selected repository `i` flips exactly its expand
flag (all other entries untouched), replaces its cached commit list
with the fetched one only on the collapsed-to-expanded transition (a
collapse keeps the cached list), and re-selects the flat row of the
same repository index in the new shape, so the selection still
resolves to `i` afterwards. -/
theorem C8_toggle_expand (repos : List RepoStatus) (sel : Option Nat)
    (fetched : List CommitInfo) (i : Nat)
    (hne : repos ≠ []) (hi : get_selected_repo_index repos sel = i) :
    ((toggle_expand repos sel fetched).1).length = repos.length ∧
    (∀ j, j ≠ i → ((toggle_expand repos sel fetched).1).get? j = repos.get? j) ∧
    ((toggle_expand repos sel fetched).1).get? i = (repos.get? i).map (toggleRepo fetched) ∧
    (∀ r : RepoStatus, (toggleRepo fetched r).expanded = !r.expanded) ∧
    (∀ r : RepoStatus, r.expanded = false → (toggleRepo fetched r).recent_commits = fetched) ∧
    (∀ r : RepoStatus, r.expanded = true →
      (toggleRepo fetched r).recent_commits = r.recent_commits) ∧
    (toggle_expand repos sel fetched).2 =
      some (calculate_table_row (toggle_expand repos sel fetched).1 i) ∧
    get_selected_repo_index (toggle_expand repos sel fetched).1
      (toggle_expand repos sel fetched).2 = i := by
  have hb : repos.isEmpty = false := by
    cases repos with
    | nil => exact absurd rfl hne
    | cons a l => rfl
  have ht : toggle_expand repos sel fetched =
      (setToggled repos i fetched,
        some (calculate_table_row (setToggled repos i fetched) i)) := by
    simp only [toggle_expand, hb, Bool.false_eq_true, if_false, hi]
  have hilt : i < repos.length := hi ▸ get_selected_lt repos sel hne
  refine ⟨?_, ?_, ?_, fun r => rfl, ?_, ?_, ?_, ?_⟩
  · rw [ht]; exact setToggled_length repos i fetched
  · intro j hj; rw [ht]; exact setToggled_get_ne repos i j fetched hj
  · rw [ht]; exact setToggled_get_eq repos i fetched
  · intro r hr; simp [toggleRepo, hr]
  · intro r hr; simp [toggleRepo, hr]
  · rw [ht]
  · rw [ht]
    have hlen : i < (setToggled repos i fetched).length := by
      rw [setToggled_length repos i fetched]; exact hilt
    exact get_selected_flatten (setToggled repos i fetched) i hlen

/-- C8 at a concrete input: selection on repository 0 of three (which
is expanded, so the toggle collapses it). -/
theorem C8_toggle_expand_witness :
    ((toggle_expand reposABC (some 0) [commitB]).1).length = reposABC.length ∧
    (∀ j, j ≠ 0 → ((toggle_expand reposABC (some 0) [commitB]).1).get? j =
      reposABC.get? j) ∧
    ((toggle_expand reposABC (some 0) [commitB]).1).get? 0 =
      (reposABC.get? 0).map (toggleRepo [commitB]) ∧
    (∀ r : RepoStatus, (toggleRepo [commitB] r).expanded = !r.expanded) ∧
    (∀ r : RepoStatus, r.expanded = false →
      (toggleRepo [commitB] r).recent_commits = [commitB]) ∧
    (∀ r : RepoStatus, r.expanded = true →
      (toggleRepo [commitB] r).recent_commits = r.recent_commits) ∧
    (toggle_expand reposABC (some 0) [commitB]).2 =
      some (calculate_table_row (toggle_expand reposABC (some 0) [commitB]).1 0) ∧
    get_selected_repo_index (toggle_expand reposABC (some 0) [commitB]).1
      (toggle_expand reposABC (some 0) [commitB]).2 = 0 :=
  C8_toggle_expand reposABC (some 0) [commitB] 0 (by decide) (by decide)

/-- C9: a successful poll of one repository sets exactly its ahead
count, behind count, current branch and last-poll timestamp; name,
path, expand flag and the cached commit list are untouched (the
commits fetched for the event log never enter `recent_commits`). -/
theorem C9_success_frame (now : Nat) (recent : String → Nat → List CommitInfo)
    (status : String → String → GitResult) (repo : RepoStatus)
    (msgs : List ConsoleMessage) (a b : Nat) (br : String)
    (hs : status repo.path "origin" = .ok a b br) :
    (processRepo now recent status repo msgs).1.name = repo.name ∧
    (processRepo now recent status repo msgs).1.path = repo.path ∧
    (processRepo now recent status repo msgs).1.expanded = repo.expanded ∧
    (processRepo now recent status repo msgs).1.recent_commits = repo.recent_commits ∧
    (processRepo now recent status repo msgs).1.ahead = a ∧
    (processRepo now recent status repo msgs).1.behind = b ∧
    (processRepo now recent status repo msgs).1.current_branch = br ∧
    (processRepo now recent status repo msgs).1.last_update = now := by
  have h := processRepo_ok now recent status repo msgs a b br hs
  rw [h]
  exact ⟨rfl, rfl, rfl, rfl, rfl, rfl, rfl, rfl⟩

/-- C9 at a concrete input: an expanded, diverged repository polled
successfully at `(2, 3)` on branch "main". -/
theorem C9_success_frame_witness :
    (processRepo 1 recentNone statusOk23 repoStale []).1.name = repoStale.name ∧
    (processRepo 1 recentNone statusOk23 repoStale []).1.path = repoStale.path ∧
    (processRepo 1 recentNone statusOk23 repoStale []).1.expanded = repoStale.expanded ∧
    (processRepo 1 recentNone statusOk23 repoStale []).1.recent_commits =
      repoStale.recent_commits ∧
    (processRepo 1 recentNone statusOk23 repoStale []).1.ahead = 2 ∧
    (processRepo 1 recentNone statusOk23 repoStale []).1.behind = 3 ∧
    (processRepo 1 recentNone statusOk23 repoStale []).1.current_branch = "main" ∧
    (processRepo 1 recentNone statusOk23 repoStale []).1.last_update = 1 :=
  C9_success_frame 1 recentNone statusOk23 repoStale [] 2 3 "main" rfl

/-- C10: when the repository opens, HEAD resolves (a shorthand and a
target commit exist) and no remote-tracking reference
`refs/remotes/<remote>/<branch>` is found — `find_reference` fails or
the found reference has no target — the status query returns
`Ok((0, 0, branch))`, and the discarded fetch result never changes the
outcome. -/
theorem C10_missing_remote_branch (repo : GitRepoModel) (head : HeadModel)
    (remote br : String) (oid : Nat) (fr : Except String Unit)
    (hh : repo.headRes = .ok head) (hsh : head.shorthand = some br)
    (ht : head.target = some oid)
    (hr : repo.findReference ("refs/remotes/" ++ (remote ++ "/" ++ br)) = none ∨
          repo.findReference ("refs/remotes/" ++ (remote ++ "/" ++ br)) = some none) :
    get_repo_status (.ok repo) remote = .ok 0 0 br ∧
    get_repo_status (.ok { repo with fetchResult := fr }) remote = .ok 0 0 br := by
  refine ⟨?_, ?_⟩ <;>
  · simp only [get_repo_status, hh, hsh, ht, Option.getD_some]
    rcases hr with h | h <;> rw [h]

/-- C10 at a concrete input: HEAD on "main" with a target, a
`find_reference` that fails for every name, a failing fetch. -/
theorem C10_missing_remote_branch_witness :
    get_repo_status (.ok repoNoRemoteBranch) "origin" = .ok 0 0 "main" ∧
    get_repo_status (.ok { repoNoRemoteBranch with fetchResult := Except.ok () }) "origin" =
      .ok 0 0 "main" :=
  C10_missing_remote_branch repoNoRemoteBranch headMain "origin" "main" 7 (Except.ok ())
    rfl rfl rfl (Or.inl rfl)

end Gitop
